import Mathlib

/-!
Verification of the qkdpy quantum-key-distribution protocol layer
(src/qkdpy/protocols: sarg04.py, e91.py, di_qkd.py, cv_qkd.py) against its
specification.  The Python classes are shallowly embedded: the stored
per-run lists (bits, bases, settings, results) become Lean lists, the
random draws consumed by a method become explicit stream parameters, and
floating-point arithmetic on recorded data becomes exact arithmetic over
the rationals (reals where a square root, power or logarithm from the
source is involved).
-/

namespace Qkdpy

/-- Total list indexing with a default value, the lookup primitive of the
embedding (Python list indexing always occurs in range in the embedded
code paths; the default is never reached under the stated length
hypotheses). -/
def listGet {α : Type} : List α → ℕ → α → α
  | [], _, d => d
  | a :: _, 0, _ => a
  | _ :: l, i + 1, d => listGet l i d

/-- The two measurement bases used by SARG04 (sarg04.py line 28:
bases = [computational, hadamard]). -/
inductive SBasis
  | computational
  | hadamard
deriving DecidableEq, Repr

/-- The four BB84 state strings of sarg04.py, written there as "0", "1",
"+" and "-". -/
inductive SState
  | s0
  | s1
  | sPlus
  | sMinus
deriving DecidableEq, Repr

namespace SARG04

/-- Embedding of SARG04._are_orthogonal (sarg04.py lines 199-209):
orthogonal pairs are (0,1), (1,0), (+,-), (-,+). -/
def are_orthogonal (state1 state2 : SState) : Bool :=
  if state1 = SState.s0 ∧ state2 = SState.s1 then true
  else if state1 = SState.s1 ∧ state2 = SState.s0 then true
  else if state1 = SState.sPlus ∧ state2 = SState.sMinus then true
  else if state1 = SState.sMinus ∧ state2 = SState.sPlus then true
  else false

/-- Embedding of SARG04._get_bit_from_state (sarg04.py lines 211-217):
states 0 and + encode bit 0, states 1 and - encode bit 1.  The source
raises on any other string; over the four-element state type the final
branch is exactly the second membership test. -/
def get_bit_from_state (state : SState) : ℕ :=
  if state = SState.s0 ∨ state = SState.sPlus then 0
  else 1

/-- The preparation basis a state string belongs to: 0 and 1 are
computational-basis states, + and - are hadamard-basis states
(sarg04.py prepare_states, lines 86-103). -/
def state_basis (state : SState) : SBasis :=
  if state = SState.s0 ∨ state = SState.s1 then SBasis.computational
  else SBasis.hadamard

/-- The state string Bob assigns to a measurement outcome in a basis
(sarg04.py sift_keys, lines 169-174). -/
def measured_state (basis : SBasis) (result : ℕ) : SState :=
  match basis with
  | SBasis.computational => if result = 0 then SState.s0 else SState.s1
  | SBasis.hadamard => if result = 0 then SState.sPlus else SState.sMinus

/-- The per-index body of SARG04.sift_keys after the loss guard
(sarg04.py lines 165-191): Bob keeps the index when his measured state is
orthogonal to exactly one member of the announced pair, inferring the bit
encoded by the other member; otherwise the index is inconclusive. -/
def inferred_bit (announced : SState × SState) (basis : SBasis) (result : ℕ) : Option ℕ :=
  let m := measured_state basis result
  let is_ortho_s1 := are_orthogonal m announced.1
  let is_ortho_s2 := are_orthogonal m announced.2
  if is_ortho_s1 && !is_ortho_s2 then some (get_bit_from_state announced.2)
  else if is_ortho_s2 && !is_ortho_s1 then some (get_bit_from_state announced.1)
  else none

/-- The stored per-run data of a SARG04 instance after preparation,
transmission and measurement (attributes of the SARG04 class):
alice_bits, announced_sets, bob_bases and bob_results, indexed by
qubit position; a lost qubit stores none in both Bob lists
(sarg04.py measure_states lines 129-133). -/
structure Run where
  num_qubits : ℕ
  alice_bits : List ℕ
  announced_sets : List (SState × SState)
  bob_bases : List (Option SBasis)
  bob_results : List (Option ℕ)

/-- The guard-plus-conclusiveness test of the sift loop body for index i
(sarg04.py lines 160-191): the index survives when Bob recorded a basis
and a result there and the orthogonality inference is conclusive. -/
def keep (r : Run) (i : ℕ) : Bool :=
  match listGet r.bob_bases i none, listGet r.bob_results i none with
  | some basis, some result =>
      (inferred_bit (listGet r.announced_sets i (SState.s0, SState.s0)) basis result).isSome
  | _, _ => false

/-- The list of indices kept by SARG04.sift_keys, in increasing order. -/
def kept_indices (r : Run) : List ℕ :=
  (List.range r.num_qubits).filter (keep r)

/-- Embedding of SARG04.sift_keys (sarg04.py lines 147-197): the loop over
range(num_qubits) appending conclusive (alice bit, inferred bob bit) pairs
is rendered as a filterMap over the same range. -/
def sift_keys (r : Run) : List ℕ × List ℕ :=
  let pairs := (List.range r.num_qubits).filterMap (fun i =>
    match listGet r.bob_bases i none, listGet r.bob_results i none with
    | some basis, some result =>
        match inferred_bit (listGet r.announced_sets i (SState.s0, SState.s0)) basis result with
        | some b => some (listGet r.alice_bits i 0, b)
        | none => none
    | _, _ => none)
  (pairs.map Prod.fst, pairs.map Prod.snd)

/-- Bob's measured state string at index i, meaningful when his basis and
result at i are recorded. -/
def bob_measured_state (r : Run) (i : ℕ) : SState :=
  measured_state ((listGet r.bob_bases i none).getD SBasis.computational)
    ((listGet r.bob_results i none).getD 0)

/-- The bit encoded by the member of the announced pair that Bob's
measured state is not orthogonal to, meaningful when the state is
orthogonal to exactly one member. -/
def other_member_bit (r : Run) (i : ℕ) : ℕ :=
  let s := listGet r.announced_sets i (SState.s0, SState.s0)
  if are_orthogonal (bob_measured_state r i) s.1 then get_bit_from_state s.2
  else get_bit_from_state s.1

/-- Embedding of the sampling parameters of SARG04.estimate_qber
(sarg04.py line 226): sample_size = max(1, int(len * 0.2)). -/
def sample_size (len : ℕ) : ℕ :=
  max 1 (len / 5)

/-- Embedding of SARG04.estimate_qber (sarg04.py lines 219-234): 1.0 when
fewer than 10 sifted bits exist, else the error fraction over the index
sample np_indices, which the source draws from the global numpy generator
(np.random.choice, line 227) and which is therefore an explicit input
here. -/
def estimate_qber (r : Run) (np_indices : List ℕ) : ℚ :=
  let a := (sift_keys r).1
  let b := (sift_keys r).2
  if a.length < 10 then 1
  else (((np_indices.filter (fun idx => !decide (listGet a idx 0 = listGet b idx 0))).length : ℚ) /
    sample_size a.length)

/-- Recursive worker of SARG04.measure_states: walks the received qubit
list, consuming the k-th secure basis draw and measurement outcome at the
k-th qubit that actually arrived; a lost qubit (None) appends None to both
stored lists at its original position (sarg04.py lines 129-142). -/
def measure_aux : List (Option SState) → (ℕ → SBasis) → (ℕ → Fin 2) → ℕ →
    List (Option SBasis) × List (Option ℕ)
  | [], _, _, _ => ([], [])
  | none :: qubits, basis_stream, outcome_stream, k =>
      let rest := measure_aux qubits basis_stream outcome_stream k
      (none :: rest.1, none :: rest.2)
  | some _ :: qubits, basis_stream, outcome_stream, k =>
      let rest := measure_aux qubits basis_stream outcome_stream (k + 1)
      (some (basis_stream k) :: rest.1, some ((outcome_stream k : ℕ)) :: rest.2)

/-- Embedding of SARG04.measure_states (sarg04.py lines 115-145) on the
received qubit list, with Bob's secure basis draws and the sampled 0/1
measurement outcomes as streams; returns (bob_bases, bob_results). -/
def measure_states (qubits : List (Option SState)) (basis_stream : ℕ → SBasis)
    (outcome_stream : ℕ → Fin 2) : List (Option SBasis) × List (Option ℕ) :=
  measure_aux qubits basis_stream outcome_stream 0

/-- The per-index branch of SARG04.prepare_states (sarg04.py lines 81-111):
from the drawn bit and basis, the sent state and its partner; the order
draw decides the announced order.  Returns (sent state, announced pair). -/
def prepare_one (bit : Fin 2) (basis : SBasis) (swap : Bool) : SState × (SState × SState) :=
  let sp : SState × SState :=
    match basis with
    | SBasis.computational =>
        if bit = 0 then (SState.s0, SState.sMinus) else (SState.s1, SState.sPlus)
    | SBasis.hadamard =>
        if bit = 0 then (SState.sPlus, SState.s1) else (SState.sMinus, SState.s0)
  (sp.1, if swap then (sp.2, sp.1) else (sp.1, sp.2))

/-- The data produced by SARG04.prepare_states: alice_bits, alice_bases,
the prepared (sent) states, and announced_sets. -/
structure Prep where
  alice_bits : List ℕ
  alice_bases : List SBasis
  sent_states : List SState
  announced_sets : List (SState × SState)

/-- Embedding of SARG04.prepare_states (sarg04.py lines 46-113) with the
secure draws as streams: per index, a bit, a basis and an announcement
order are drawn; the qubit list is represented by the sent state strings
(the four constructors Qubit.zero, Qubit.one, Qubit.plus, Qubit.minus). -/
def prepare_states (num_qubits : ℕ) (bit_stream : ℕ → Fin 2) (basis_stream : ℕ → SBasis)
    (order_stream : ℕ → Bool) : Prep :=
  { alice_bits := (List.range num_qubits).map (fun i => ((bit_stream i : ℕ)))
    alice_bases := (List.range num_qubits).map basis_stream
    sent_states := (List.range num_qubits).map
      (fun i => (prepare_one (bit_stream i) (basis_stream i) (order_stream i)).1)
    announced_sets := (List.range num_qubits).map
      (fun i => (prepare_one (bit_stream i) (basis_stream i) (order_stream i)).2) }

end SARG04

/-- The stored per-run data shared by the two entanglement-based protocol
classes E91 and DeviceIndependentQKD: per-trial measurement settings in
0..2 and results, where -1 is the loss sentinel and measurement outcomes
are 0 or 1 (attributes alice_settings, bob_settings, alice_results,
bob_results). -/
structure EntRun where
  alice_settings : List (Fin 3)
  bob_settings : List (Fin 3)
  alice_results : List ℤ
  bob_results : List ℤ

/-- The shared correlation estimator of the two Bell tests: given the
trial indices of one setting pair and the per-trial match test, return
2 * match_prob - 1 when the pair has samples and 0.0 otherwise
(e91.py lines 220-225, di_qkd.py lines 195-202). -/
def empirical_correlation (idx : List ℕ) (is_match : ℕ → Bool) : ℚ :=
  if 0 < idx.length then 2 * (((idx.filter is_match).length : ℚ) / idx.length) - 1 else 0

/-- Embedding of the loss bookkeeping shared by E91.measure_states
(e91.py lines 88-136) and DeviceIndependentQKD.measure_states (di_qkd.py
lines 92-142): at trial i, when the channel-loss draw fires both parties
record the sentinel -1 at position i; otherwise each records its sampled
0/1 measurement outcome, abstracted as outcome streams.  Returns
(alice_results, bob_results). -/
def ent_measure_results (loss : List Bool) (alice_outcome bob_outcome : ℕ → Fin 2) :
    List ℤ × List ℤ :=
  ((List.range loss.length).map (fun i =>
      if listGet loss i false then -1 else ((alice_outcome i : ℕ) : ℤ)),
   (List.range loss.length).map (fun i =>
      if listGet loss i false then -1 else ((bob_outcome i : ℕ) : ℤ)))

namespace E91

/-- Alice's measurement angles, indexed by setting (e91.py line 41):
0, pi/4, pi/2. -/
noncomputable def alice_angle : Fin 3 → ℝ
  | ⟨0, _⟩ => 0
  | ⟨1, _⟩ => Real.pi / 4
  | ⟨2, _⟩ => Real.pi / 2
  | ⟨n + 3, h⟩ => absurd h (by omega)

/-- Bob's measurement angles, indexed by setting (e91.py line 49):
pi/4, pi/2, 3pi/4. -/
noncomputable def bob_angle : Fin 3 → ℝ
  | ⟨0, _⟩ => Real.pi / 4
  | ⟨1, _⟩ => Real.pi / 2
  | ⟨2, _⟩ => 3 * Real.pi / 4
  | ⟨n + 3, h⟩ => absurd h (by omega)

/-- The matching-angle test of E91.sift_keys (e91.py line 160):
abs(angle_a - angle_b) < 1e-6. -/
def angle_match (a b : Fin 3) : Prop :=
  |alice_angle a - bob_angle b| < 1 / 1000000

instance angle_match_dec (a b : Fin 3) : Decidable (angle_match a b) :=
  decidable_of_iff ((a = 1 ∧ b = 0) ∨ (a = 2 ∧ b = 1)) (Iff.symm (by
    have hpi : (3 : ℝ) < Real.pi := Real.pi_gt_three
    fin_cases a <;> fin_cases b <;>
      simp only [angle_match, alice_angle, bob_angle] <;>
      rw [abs_lt] <;>
      constructor
    all_goals intro h
    all_goals first
      | (exfalso
         obtain ⟨h1, h2⟩ := h
         linarith)
      | (constructor <;> linarith)
      | simp_all))

/-- The per-index keep test of E91.sift_keys (e91.py lines 149-160): both
results recorded (not the loss sentinel -1) and the measurement angles
match within the tolerance. -/
def keep (r : EntRun) (i : ℕ) : Bool :=
  !decide (listGet r.alice_results i 0 = -1) && !decide (listGet r.bob_results i 0 = -1) &&
    decide (angle_match (listGet r.alice_settings i 0) (listGet r.bob_settings i 0))

/-- The list of trial indices kept by E91.sift_keys, in order. -/
def kept_indices (r : EntRun) : List ℕ :=
  (List.range r.alice_results.length).filter (keep r)

/-- Embedding of E91.sift_keys (e91.py lines 138-164). -/
def sift_keys (r : EntRun) : List ℤ × List ℤ :=
  ((kept_indices r).map (fun i => listGet r.alice_results i 0),
   (kept_indices r).map (fun i => listGet r.bob_results i 0))

/-- Embedding of E91.estimate_qber (e91.py lines 166-175): 1.0 on an empty
sifted key, else the mismatch fraction of the sifted pair. -/
def estimate_qber (r : EntRun) : ℚ :=
  let a := (sift_keys r).1
  let b := (sift_keys r).2
  if a = [] then 1
  else ((((a.zip b).filter (fun p => !decide (p.1 = p.2))).length : ℚ) / a.length)

/-- The trial indices contributing to the CHSH correlation of one setting
pair in E91.test_bell_inequality (e91.py lines 204-218): Alice result
recorded and both settings equal to the targets. -/
def pair_indices (r : EntRun) (a_target b_target : Fin 3) : List ℕ :=
  (List.range r.alice_results.length).filter (fun i =>
    !decide (listGet r.alice_results i 0 = -1) &&
      decide (listGet r.alice_settings i 0 = a_target) &&
      decide (listGet r.bob_settings i 0 = b_target))

/-- The correlation value E(a_target, b_target) of E91.test_bell_inequality. -/
def correlation (r : EntRun) (a_target b_target : Fin 3) : ℚ :=
  empirical_correlation (pair_indices r a_target b_target)
    (fun i => decide (listGet r.alice_results i 0 = listGet r.bob_results i 0))

/-- The CHSH statistic of E91.test_bell_inequality (e91.py line 232):
S = E(0,0) - E(0,2) + E(2,0) + E(2,2) over the reserved setting pairs. -/
def s_value (r : EntRun) : ℚ :=
  correlation r 0 0 - correlation r 0 2 + correlation r 2 0 + correlation r 2 2

/-- The security decision of E91.execute (e91.py lines 236 and 251):
is_secure is the is_violated field, abs(s_value) > 2.0 with the constant
2.0, regardless of the security_threshold constructor argument. -/
def is_violated (r : EntRun) : Bool :=
  decide ((2 : ℚ) < |s_value r|)

/-- The protocol result record fields relevant to the claims. -/
structure Result where
  final_key : List ℤ
  qber : ℚ
  is_secure : Bool

/-- Embedding of E91.execute (e91.py lines 241-267) on recorded run data:
the Bell test decides is_secure, the sifted Alice key truncated to
key_length is the final key.  The security_threshold constructor argument
is stored but never consulted by execute. -/
def execute (r : EntRun) (key_length : ℕ) (_security_threshold : ℚ) : Result :=
  { final_key := (sift_keys r).1.take key_length
    qber := estimate_qber r
    is_secure := is_violated r }

end E91

namespace DIQKD

/-- The per-index keep test of DeviceIndependentQKD.sift_keys (di_qkd.py
lines 152-157): both results recorded and both settings equal to the
key-generation setting 0. -/
def keep (r : EntRun) (i : ℕ) : Bool :=
  !decide (listGet r.alice_results i 0 = -1) && !decide (listGet r.bob_results i 0 = -1) &&
    decide (listGet r.alice_settings i 0 = 0) && decide (listGet r.bob_settings i 0 = 0)

/-- The list of trial indices kept by DeviceIndependentQKD.sift_keys. -/
def kept_indices (r : EntRun) : List ℕ :=
  (List.range r.alice_results.length).filter (keep r)

/-- Embedding of DeviceIndependentQKD.sift_keys (di_qkd.py lines 144-159). -/
def sift_keys (r : EntRun) : List ℤ × List ℤ :=
  ((kept_indices r).map (fun i => listGet r.alice_results i 0),
   (kept_indices r).map (fun i => listGet r.bob_results i 0))

/-- Embedding of DeviceIndependentQKD.estimate_qber (di_qkd.py lines
215-224). -/
def estimate_qber (r : EntRun) : ℚ :=
  let a := (sift_keys r).1
  let b := (sift_keys r).2
  if a = [] then 1
  else ((((a.zip b).filter (fun p => !decide (p.1 = p.2))).length : ℚ) / a.length)

/-- The trial indices contributing to one CHSH setting pair in
DeviceIndependentQKD.test_bell_inequality (di_qkd.py lines 169-193):
Alice result recorded, neither setting is the key setting 0, and both
settings equal the targets (the targets in use are 1 and 2, mapped there
to 0 and 1). -/
def pair_indices (r : EntRun) (a_target b_target : Fin 3) : List ℕ :=
  (List.range r.alice_results.length).filter (fun i =>
    !decide (listGet r.alice_results i 0 = -1) &&
      !decide (listGet r.alice_settings i 0 = 0) &&
      !decide (listGet r.bob_settings i 0 = 0) &&
      decide (listGet r.alice_settings i 0 = a_target) &&
      decide (listGet r.bob_settings i 0 = b_target))

/-- The correlation value of one CHSH setting pair of
DeviceIndependentQKD.test_bell_inequality. -/
def correlation (r : EntRun) (a_target b_target : Fin 3) : ℚ :=
  empirical_correlation (pair_indices r a_target b_target)
    (fun i => decide (listGet r.alice_results i 0 = listGet r.bob_results i 0))

/-- The CHSH statistic of DeviceIndependentQKD.test_bell_inequality
(di_qkd.py line 211): S = E00 + E01 + E10 - E11, where Eab is the
correlation at settings (a+1, b+1). -/
def s_value (r : EntRun) : ℚ :=
  correlation r 1 1 + correlation r 1 2 + correlation r 2 1 - correlation r 2 2

/-- Embedding of DeviceIndependentQKD.execute (di_qkd.py lines 229-253):
is_secure is abs(s_value) > security_threshold with the constructor
argument as threshold. -/
def execute (r : EntRun) (key_length : ℕ) (security_threshold : ℚ) : E91.Result :=
  { final_key := (sift_keys r).1.take key_length
    qber := estimate_qber r
    is_secure := decide (security_threshold < |s_value r|) }

end DIQKD

namespace CVQKD

/-- The number of signals of a CVQKD run (cv_qkd.py line 50):
block_size = max(10000, key_length * 100). -/
def block_size (key_length : ℕ) : ℕ :=
  max 10000 (key_length * 100)

/-- Embedding of CVQKD.sift_keys (cv_qkd.py lines 153-169) on the stored
quadrature and basis data: Alice keeps the X quadrature where Bob measured
X (basis false) and the P quadrature where Bob measured P (basis true);
both continuous sequences are then discretized by sign, 1 if positive and
0 otherwise.  The quadrature values are modelled over the rationals. -/
def sift_keys (alice_x alice_p : List ℚ) (bob_bases : List Bool)
    (bob_measurements : List ℚ) : List ℕ × List ℕ :=
  let alice_sifted_float := (List.range bob_bases.length).map (fun i =>
    if listGet bob_bases i false = false then listGet alice_x i 0 else listGet alice_p i 0)
  (alice_sifted_float.map (fun x => if 0 < x then 1 else 0),
   bob_measurements.map (fun x => if 0 < x then 1 else 0))

/-- Pearson correlation coefficient of two discretized sequences, the
np.corrcoef entry used by CVQKD.estimate_qber (cv_qkd.py line 183). -/
noncomputable def corrcoef (a b : List ℕ) : ℝ :=
  let abar : ℝ := (a.sum : ℝ) / a.length
  let bbar : ℝ := (b.sum : ℝ) / b.length
  let cov := ((a.zip b).map (fun p => ((p.1 : ℝ) - abar) * ((p.2 : ℝ) - bbar))).sum
  let va := (a.map (fun x => ((x : ℝ) - abar) ^ 2)).sum
  let vb := (b.map (fun x => ((x : ℝ) - bbar) ^ 2)).sum
  cov / (Real.sqrt va * Real.sqrt vb)

/-- Embedding of CVQKD.estimate_qber (cv_qkd.py lines 171-186): 1.0 when
fewer than 2 sifted samples exist, else 1 - abs(correlation). -/
noncomputable def estimate_qber (alice_x alice_p : List ℚ) (bob_bases : List Bool)
    (bob_measurements : List ℚ) : ℝ :=
  let a := (sift_keys alice_x alice_p bob_bases bob_measurements).1
  let b := (sift_keys alice_x alice_p bob_bases bob_measurements).2
  if a.length < 2 then 1 else 1 - |corrcoef a b|

/-- The theoretical capacity used by CVQKD.execute (cv_qkd.py lines
238-239): snr = modulation_variance * homodyne_efficiency and
capacity = 0.5 * log2(1 + snr). -/
noncomputable def capacity (modulation_variance homodyne_efficiency : ℝ) : ℝ :=
  0.5 * Real.logb 2 (1 + modulation_variance * homodyne_efficiency)

/-- The final key length computed by CVQKD.execute (cv_qkd.py line 241):
int(len(alice_bits) * capacity * 0.1); the capacity is nonnegative in
every run, so the Python int truncation is the floor. -/
noncomputable def final_key_len (num_bits : ℕ) (cap : ℝ) : ℤ :=
  ⌊(num_bits : ℝ) * cap * 0.1⌋

/-- The final key of CVQKD.execute (cv_qkd.py line 242):
final_key = alice_bits[:final_key_len], with no truncation to the
requested key length. -/
noncomputable def final_key (alice_bits : List ℕ) (cap : ℝ) : List ℕ :=
  alice_bits.take (final_key_len alice_bits.length cap).toNat

/-- Embedding of CVQKD.measure_states (cv_qkd.py lines 85-151).  The
stored Alice quadratures, Bob's secure-seeded basis draws, and the six
noise sequences drawn from the global numpy generator (np.random.normal at
lines 110-115, 135 and 145) are explicit inputs; the returned list is the
stored bob_measurements. -/
noncomputable def measure_states (alice_x alice_p : List ℝ)
    (loss_coefficient distance homodyne_efficiency : ℝ) (bob_bases : List Bool)
    (vacuum_noise_x vacuum_noise_p excess_noise_x excess_noise_p
      detector_noise vacuum_detector : List ℝ) : List ℝ :=
  let transmission : ℝ := (10 : ℝ) ^ (-(loss_coefficient * distance) / 10)
  let t := Real.sqrt transmission
  (List.range bob_bases.length).map (fun i =>
    let bob_x_arrived := t * listGet alice_x i 0 +
      Real.sqrt (1 - t ^ 2) * listGet vacuum_noise_x i 0 + listGet excess_noise_x i 0
    let bob_p_arrived := t * listGet alice_p i 0 +
      Real.sqrt (1 - t ^ 2) * listGet vacuum_noise_p i 0 + listGet excess_noise_p i 0
    let signal := if listGet bob_bases i false = false then bob_x_arrived else bob_p_arrived
    Real.sqrt homodyne_efficiency * signal +
      Real.sqrt (1 - homodyne_efficiency) * listGet vacuum_detector i 0 +
      listGet detector_noise i 0)

end CVQKD

/-- Modelled from the spec: the shared BaseProtocol.execute of the
prepare-and-measure pipeline is not under src/; per spec section 4.3 it
sets final_key to the sifted sender sequence truncated or padded to the
requested key length. -/
def base_final_key (sifted : List ℕ) (key_length : ℕ) : List ℕ :=
  sifted.take key_length ++ List.replicate (key_length - sifted.length) 0

/-- A one-qubit SARG04 run used to instantiate hypotheses: Alice sent bit
0 as the state 0 announcing the pair (0, -); Bob measured outcome 1 in the
computational basis, so his measured state 1 is orthogonal to the first
member only. -/
def sarg04_wit_run : SARG04.Run :=
  { num_qubits := 1
    alice_bits := [0]
    announced_sets := [(SState.s0, SState.sMinus)]
    bob_bases := [some SBasis.computational]
    bob_results := [some 1] }

/-- A ten-qubit SARG04 run whose sift keeps all ten indices: every
announced pair is (0, -) and Bob always measured 1 in the computational
basis, inferring bit 1; Alice recorded bit 0 at index 0 and bit 1
elsewhere, so exactly the sampled index 0 is an error. -/
def sarg04_csprng_run : SARG04.Run :=
  { num_qubits := 10
    alice_bits := [0, 1, 1, 1, 1, 1, 1, 1, 1, 1]
    announced_sets := List.replicate 10 (SState.s0, SState.sMinus)
    bob_bases := List.replicate 10 (some SBasis.computational)
    bob_results := List.replicate 10 (some 1) }

/-- An empty SARG04 run (no qubits). -/
def sarg04_empty_run : SARG04.Run :=
  { num_qubits := 0
    alice_bits := []
    announced_sets := []
    bob_bases := []
    bob_results := [] }

/-- An entanglement run with no trials. -/
def ent_empty_run : EntRun :=
  { alice_settings := []
    bob_settings := []
    alice_results := []
    bob_results := [] }

/-- A single-trial E91 run at settings (0, 0) with equal outcomes: the
(0,0) correlation is 1, every other reserved pair is empty, so S = 1. -/
def ent_single_match_run : EntRun :=
  { alice_settings := [0]
    bob_settings := [0]
    alice_results := [0]
    bob_results := [0] }

/-- Recorded data driving the E91 CHSH statistic to 4: one trial per
reserved setting pair, matching outcomes everywhere except the (0,2)
pair.  None of the four trials is a matching-angle pair, so the sifted
key is empty. -/
def ent_chsh_max_run_e91 : EntRun :=
  { alice_settings := [0, 0, 2, 2]
    bob_settings := [0, 2, 0, 2]
    alice_results := [0, 0, 0, 0]
    bob_results := [0, 1, 0, 0] }

/-- Recorded data driving the DeviceIndependentQKD CHSH statistic to 4:
one trial per CHSH setting pair, matching outcomes everywhere except the
(2,2) pair, which enters S with a minus sign. -/
def ent_chsh_max_run_di : EntRun :=
  { alice_settings := [1, 1, 2, 2]
    bob_settings := [1, 2, 1, 2]
    alice_results := [0, 0, 0, 0]
    bob_results := [0, 0, 0, 1] }

/-- A single-trial run at the E91 key-generation pair (Alice 1, Bob 0),
both angles pi/4, with both results recorded. -/
def ent_key_pair_run : EntRun :=
  { alice_settings := [1]
    bob_settings := [0]
    alice_results := [0]
    bob_results := [1] }

theorem listGet_eq_getD {α : Type} (l : List α) (i : ℕ) (d : α) :
    listGet l i d = l.getD i d := by
  induction l generalizing i with
  | nil => cases i <;> rfl
  | cons a l ih =>
    cases i with
    | zero => rfl
    | succ n => simpa [listGet] using ih n

theorem listGet_range_map {α : Type} (f : ℕ → α) (n i : ℕ) (d : α) (h : i < n) :
    listGet ((List.range n).map f) i d = f i := by
  rw [listGet_eq_getD, List.getD_eq_getElem?_getD, List.getElem?_map, List.getElem?_range h]
  rfl

/-- Rewrites a filterMap whose function agrees with a filter followed by a
map into that composition. -/
theorem list_filterMap_eq_filter_map {α β : Type} (f : α → Option β) (g : α → β)
    (p : α → Bool) (h : ∀ a, f a = if p a then some (g a) else none) (l : List α) :
    l.filterMap f = (l.filter p).map g := by
  induction l with
  | nil => rfl
  | cons a l ih =>
    by_cases hp : p a
    · simp [List.filterMap_cons, List.filter_cons, h a, hp, ih]
    · simp [List.filterMap_cons, List.filter_cons, h a, hp, ih]

theorem abs_empirical_correlation_le_one (idx : List ℕ) (is_match : ℕ → Bool) :
    |empirical_correlation idx is_match| ≤ 1 := by
  unfold empirical_correlation
  by_cases ht : 0 < idx.length
  · have hm : (idx.filter is_match).length ≤ idx.length := List.length_filter_le _ _
    have h0 : (0 : ℚ) < idx.length := by exact_mod_cast ht
    have h1 : (0 : ℚ) ≤ ((idx.filter is_match).length : ℚ) / idx.length :=
      div_nonneg (by positivity) h0.le
    have h2 : ((idx.filter is_match).length : ℚ) / idx.length ≤ 1 :=
      (div_le_one h0).mpr (by exact_mod_cast hm)
    rw [if_pos ht, abs_le]
    constructor <;> linarith
  · rw [if_neg ht]
    norm_num

namespace SARG04

/-- The sift output pairs equal the kept indices mapped to the claimed
(alice bit, other-member bit) pairs. -/
theorem sift_keys_eq_map_kept (r : Run) :
    sift_keys r =
      ((kept_indices r).map (fun i => listGet r.alice_bits i 0),
       (kept_indices r).map (fun i => other_member_bit r i)) := by
  have h : ∀ i : ℕ,
      (match listGet r.bob_bases i none, listGet r.bob_results i none with
        | some basis, some result =>
            match inferred_bit (listGet r.announced_sets i (SState.s0, SState.s0)) basis result with
            | some b => some (listGet r.alice_bits i 0, b)
            | none => none
        | _, _ => (none : Option (ℕ × ℕ))) =
      if keep r i then some (listGet r.alice_bits i 0, other_member_bit r i) else none := by
    intro i
    cases hb : listGet r.bob_bases i none with
    | none => simp [keep, hb]
    | some basis =>
      cases hr : listGet r.bob_results i none with
      | none => simp [keep, hb, hr]
      | some result =>
        simp only [keep, hb, hr]
        cases ho1 : are_orthogonal (measured_state basis result)
            (listGet r.announced_sets i (SState.s0, SState.s0)).1 <;>
          cases ho2 : are_orthogonal (measured_state basis result)
              (listGet r.announced_sets i (SState.s0, SState.s0)).2 <;>
            simp [inferred_bit, other_member_bit, bob_measured_state, hb, hr, ho1, ho2]
  have hpairs := list_filterMap_eq_filter_map _
    (fun i => (listGet r.alice_bits i 0, other_member_bit r i)) (keep r) h
    (List.range r.num_qubits)
  simp only [sift_keys, hpairs, kept_indices, List.map_map]
  exact Prod.ext rfl rfl

/-- Membership in the kept indices is exactly the in-range
exactly-one-orthogonality condition, given recorded bob data at i. -/
theorem mem_kept_indices_iff (r : Run) (i : ℕ) (basis : SBasis) (result : ℕ)
    (hb : listGet r.bob_bases i none = some basis)
    (hr : listGet r.bob_results i none = some result) :
    i ∈ kept_indices r ↔
      (i < r.num_qubits ∧
        are_orthogonal (measured_state basis result)
            (listGet r.announced_sets i (SState.s0, SState.s0)).1 ≠
          are_orthogonal (measured_state basis result)
            (listGet r.announced_sets i (SState.s0, SState.s0)).2) := by
  rw [kept_indices, List.mem_filter, List.mem_range]
  have : keep r i = true ↔
      are_orthogonal (measured_state basis result)
          (listGet r.announced_sets i (SState.s0, SState.s0)).1 ≠
        are_orthogonal (measured_state basis result)
          (listGet r.announced_sets i (SState.s0, SState.s0)).2 := by
    simp only [keep, hb, hr]
    cases ho1 : are_orthogonal (measured_state basis result)
        (listGet r.announced_sets i (SState.s0, SState.s0)).1 <;>
      cases ho2 : are_orthogonal (measured_state basis result)
          (listGet r.announced_sets i (SState.s0, SState.s0)).2 <;>
        simp [inferred_bit, ho1, ho2]
  rw [this]

end SARG04

/-- C1: for every index of a SARG04 run at which Bob recorded a basis and
a result, sift_keys keeps the index if and only if Bob's measured state
string is orthogonal to exactly one member of the announced pair there;
the sift output is, in kept-index order, Alice's stored bit alice_bits[i]
on the sender side and the bit encoded by the other (non-orthogonal)
member of the pair on the receiver side. -/
theorem sarg04_sift_keeps_iff_exactly_one_orthogonal (r : SARG04.Run) :
    (∀ (i : ℕ) (basis : SBasis) (result : ℕ),
        listGet r.bob_bases i none = some basis →
        listGet r.bob_results i none = some result →
        (i ∈ SARG04.kept_indices r ↔
          (i < r.num_qubits ∧
            SARG04.are_orthogonal (SARG04.measured_state basis result)
                (listGet r.announced_sets i (SState.s0, SState.s0)).1 ≠
              SARG04.are_orthogonal (SARG04.measured_state basis result)
                (listGet r.announced_sets i (SState.s0, SState.s0)).2))) ∧
    SARG04.sift_keys r =
      ((SARG04.kept_indices r).map (fun i => listGet r.alice_bits i 0),
       (SARG04.kept_indices r).map (fun i => SARG04.other_member_bit r i)) :=
  ⟨fun i basis result hb hr => SARG04.mem_kept_indices_iff r i basis result hb hr,
   SARG04.sift_keys_eq_map_kept r⟩

/-- Witness for C1 at a concrete one-qubit run: Bob recorded the
computational basis and outcome 1, that state is orthogonal to exactly
the first announced member, and index 0 is kept. -/
theorem sarg04_sift_keeps_iff_exactly_one_orthogonal_w :
    listGet sarg04_wit_run.bob_bases 0 none = some SBasis.computational ∧
    listGet sarg04_wit_run.bob_results 0 none = some 1 ∧
    (0 ∈ SARG04.kept_indices sarg04_wit_run ↔
      (0 < sarg04_wit_run.num_qubits ∧
        SARG04.are_orthogonal (SARG04.measured_state SBasis.computational 1)
            (listGet sarg04_wit_run.announced_sets 0 (SState.s0, SState.s0)).1 ≠
          SARG04.are_orthogonal (SARG04.measured_state SBasis.computational 1)
            (listGet sarg04_wit_run.announced_sets 0 (SState.s0, SState.s0)).2)) :=
  ⟨rfl, rfl,
    (sarg04_sift_keeps_iff_exactly_one_orthogonal sarg04_wit_run).1 0
      SBasis.computational 1 rfl rfl⟩

/-- The E91 angle tolerance test succeeds exactly on the two
coinciding-angle setting pairs: Alice 1 with Bob 0 (both pi/4) and
Alice 2 with Bob 1 (both pi/2); every other angle pair differs by at
least pi/4, far above the 1e-6 tolerance. -/
theorem e91_angle_match_iff (a b : Fin 3) :
    E91.angle_match a b ↔ ((a = 1 ∧ b = 0) ∨ (a = 2 ∧ b = 1)) := by
  fin_cases a <;> fin_cases b <;> decide

theorem e91_mem_kept_indices_iff (r : EntRun) (i : ℕ) :
    i ∈ E91.kept_indices r ↔
      (i < r.alice_results.length ∧ listGet r.alice_results i 0 ≠ -1 ∧
        listGet r.bob_results i 0 ≠ -1 ∧
        ((listGet r.alice_settings i 0 = 1 ∧ listGet r.bob_settings i 0 = 0) ∨
          (listGet r.alice_settings i 0 = 2 ∧ listGet r.bob_settings i 0 = 1))) := by
  rw [E91.kept_indices, List.mem_filter, List.mem_range, E91.keep]
  simp [e91_angle_match_iff, and_assoc]

theorem di_mem_kept_indices_iff (r : EntRun) (i : ℕ) :
    i ∈ DIQKD.kept_indices r ↔
      (i < r.alice_results.length ∧ listGet r.alice_results i 0 ≠ -1 ∧
        listGet r.bob_results i 0 ≠ -1 ∧
        listGet r.alice_settings i 0 = 0 ∧ listGet r.bob_settings i 0 = 0) := by
  rw [DIQKD.kept_indices, List.mem_filter, List.mem_range, DIQKD.keep]
  simp [and_assoc]

/-- C7: E91.sift_keys keeps exactly the trials at which neither result is
the loss sentinel -1 and the parties chose coinciding measurement angles,
which happens exactly at the setting pairs (Alice 1, Bob 0), both pi/4,
and (Alice 2, Bob 1), both pi/2; DeviceIndependentQKD.sift_keys keeps
exactly the non-lost trials with both settings equal to 0.  The sifted
keys are the respective result lists over those kept trials. -/
theorem ent_sift_keeps_key_generation_pairs (r : EntRun) :
    (∀ i : ℕ, i ∈ E91.kept_indices r ↔
      (i < r.alice_results.length ∧ listGet r.alice_results i 0 ≠ -1 ∧
        listGet r.bob_results i 0 ≠ -1 ∧
        ((listGet r.alice_settings i 0 = 1 ∧ listGet r.bob_settings i 0 = 0) ∨
          (listGet r.alice_settings i 0 = 2 ∧ listGet r.bob_settings i 0 = 1)))) ∧
    (∀ a b : Fin 3, E91.angle_match a b ↔ ((a = 1 ∧ b = 0) ∨ (a = 2 ∧ b = 1))) ∧
    E91.sift_keys r =
      ((E91.kept_indices r).map (fun i => listGet r.alice_results i 0),
       (E91.kept_indices r).map (fun i => listGet r.bob_results i 0)) ∧
    (∀ i : ℕ, i ∈ DIQKD.kept_indices r ↔
      (i < r.alice_results.length ∧ listGet r.alice_results i 0 ≠ -1 ∧
        listGet r.bob_results i 0 ≠ -1 ∧
        listGet r.alice_settings i 0 = 0 ∧ listGet r.bob_settings i 0 = 0)) ∧
    DIQKD.sift_keys r =
      ((DIQKD.kept_indices r).map (fun i => listGet r.alice_results i 0),
       (DIQKD.kept_indices r).map (fun i => listGet r.bob_results i 0)) :=
  ⟨fun i => e91_mem_kept_indices_iff r i, fun a b => e91_angle_match_iff a b, rfl,
   fun i => di_mem_kept_indices_iff r i, rfl⟩

theorem abs_e91_correlation_le_one (r : EntRun) (a b : Fin 3) :
    |E91.correlation r a b| ≤ 1 :=
  abs_empirical_correlation_le_one _ _

theorem abs_di_correlation_le_one (r : EntRun) (a b : Fin 3) :
    |DIQKD.correlation r a b| ≤ 1 :=
  abs_empirical_correlation_le_one _ _

/-- C3 (amended): for every sequence of recorded settings and results, the
CHSH statistic of both Bell tests is bounded by 4 in absolute value, each
empirical correlation lying in [-1, 1]; the Tsirelson bound 2 * sqrt 2 is
not respected by the estimator on arbitrary finite data (see the
counterexample). -/
theorem bell_s_value_abs_le_four (r : EntRun) :
    |E91.s_value r| ≤ 4 ∧ |DIQKD.s_value r| ≤ 4 := by
  have h1 := abs_le.mp (abs_e91_correlation_le_one r 0 0)
  have h2 := abs_le.mp (abs_e91_correlation_le_one r 0 2)
  have h3 := abs_le.mp (abs_e91_correlation_le_one r 2 0)
  have h4 := abs_le.mp (abs_e91_correlation_le_one r 2 2)
  have h5 := abs_le.mp (abs_di_correlation_le_one r 1 1)
  have h6 := abs_le.mp (abs_di_correlation_le_one r 1 2)
  have h7 := abs_le.mp (abs_di_correlation_le_one r 2 1)
  have h8 := abs_le.mp (abs_di_correlation_le_one r 2 2)
  constructor
  · rw [abs_le]
    unfold E91.s_value
    constructor <;> linarith [h1.1, h1.2, h2.1, h2.2, h3.1, h3.2, h4.1, h4.2]
  · rw [abs_le]
    unfold DIQKD.s_value
    constructor <;> linarith [h5.1, h5.2, h6.1, h6.2, h7.1, h7.2, h8.1, h8.2]

/-- Evaluation rule for the correlation estimator on concrete data with at
least one sample. -/
theorem empirical_correlation_eval (idx : List ℕ) (f : ℕ → Bool) (t m : ℕ)
    (ht : idx.length = t) (hm : (idx.filter f).length = m) (h0 : 0 < t) :
    empirical_correlation idx f = 2 * ((m : ℚ) / t) - 1 := by
  subst ht
  subst hm
  rw [empirical_correlation, if_pos h0]

/-- Evaluation rule for the correlation estimator on an empty setting
pair. -/
theorem empirical_correlation_of_empty (idx : List ℕ) (f : ℕ → Bool)
    (h : idx.length = 0) : empirical_correlation idx f = 0 := by
  rw [empirical_correlation, if_neg]
  omega

/-- Counterexample to C3 as stated: concrete recorded data (settings in
0..2, results in -1..1, equal lengths) on which both Bell tests return
S = 4, strictly above the claimed Tsirelson bound 2 * sqrt 2. -/
theorem bell_s_value_exceeds_tsirelson :
    E91.s_value ent_chsh_max_run_e91 = 4 ∧
    DIQKD.s_value ent_chsh_max_run_di = 4 ∧
    2 * Real.sqrt 2 < ((4 : ℚ) : ℝ) := by
  have he00 : E91.correlation ent_chsh_max_run_e91 0 0 = 2 * ((1 : ℚ) / 1) - 1 :=
    empirical_correlation_eval _ _ 1 1 (by decide) (by decide) (by decide)
  have he02 : E91.correlation ent_chsh_max_run_e91 0 2 = 2 * ((0 : ℚ) / 1) - 1 :=
    empirical_correlation_eval _ _ 1 0 (by decide) (by decide) (by decide)
  have he20 : E91.correlation ent_chsh_max_run_e91 2 0 = 2 * ((1 : ℚ) / 1) - 1 :=
    empirical_correlation_eval _ _ 1 1 (by decide) (by decide) (by decide)
  have he22 : E91.correlation ent_chsh_max_run_e91 2 2 = 2 * ((1 : ℚ) / 1) - 1 :=
    empirical_correlation_eval _ _ 1 1 (by decide) (by decide) (by decide)
  have hd11 : DIQKD.correlation ent_chsh_max_run_di 1 1 = 2 * ((1 : ℚ) / 1) - 1 :=
    empirical_correlation_eval _ _ 1 1 (by decide) (by decide) (by decide)
  have hd12 : DIQKD.correlation ent_chsh_max_run_di 1 2 = 2 * ((1 : ℚ) / 1) - 1 :=
    empirical_correlation_eval _ _ 1 1 (by decide) (by decide) (by decide)
  have hd21 : DIQKD.correlation ent_chsh_max_run_di 2 1 = 2 * ((1 : ℚ) / 1) - 1 :=
    empirical_correlation_eval _ _ 1 1 (by decide) (by decide) (by decide)
  have hd22 : DIQKD.correlation ent_chsh_max_run_di 2 2 = 2 * ((0 : ℚ) / 1) - 1 :=
    empirical_correlation_eval _ _ 1 0 (by decide) (by decide) (by decide)
  refine ⟨?_, ?_, ?_⟩
  · rw [E91.s_value, he00, he02, he20, he22]
    norm_num
  · rw [DIQKD.s_value, hd11, hd12, hd21, hd22]
    norm_num
  · have hs : Real.sqrt 2 < 2 := by
      nlinarith [Real.sq_sqrt (by norm_num : (0 : ℝ) ≤ 2), Real.sqrt_nonneg 2]
    push_cast
    linarith

/-- C2 (amended): after execute, DeviceIndependentQKD.is_secure holds if
and only if the absolute CHSH statistic exceeds the security threshold
supplied at construction; E91.is_secure holds if and only if the absolute
CHSH statistic exceeds the fixed constant 2.0, independently of the
security_threshold constructor argument. -/
theorem execute_is_secure_iff_chsh (r : EntRun) (key_length : ℕ) (threshold : ℚ) :
    ((DIQKD.execute r key_length threshold).is_secure = true ↔
      threshold < |DIQKD.s_value r|) ∧
    ((E91.execute r key_length threshold).is_secure = true ↔
      (2 : ℚ) < |E91.s_value r|) ∧
    (E91.execute r key_length threshold).is_secure =
      (E91.execute r key_length 0).is_secure := by
  refine ⟨?_, ?_, rfl⟩ <;> simp [DIQKD.execute, E91.execute, E91.is_violated]

/-- Counterexample to C2 as stated: a run with S = 1 executed by E91 with
the (default) constructor threshold 0.1; the absolute statistic exceeds
the supplied threshold, yet is_secure is false because execute compares
against the constant 2.0. -/
theorem e91_is_secure_ignores_threshold :
    (E91.execute ent_single_match_run 100 (1 / 10)).is_secure = false ∧
    (1 / 10 : ℚ) < |E91.s_value ent_single_match_run| := by
  have h00 : E91.correlation ent_single_match_run 0 0 = 2 * ((1 : ℚ) / 1) - 1 :=
    empirical_correlation_eval _ _ 1 1 (by decide) (by decide) (by decide)
  have h02 : E91.correlation ent_single_match_run 0 2 = 0 :=
    empirical_correlation_of_empty _ _ (by decide)
  have h20 : E91.correlation ent_single_match_run 2 0 = 0 :=
    empirical_correlation_of_empty _ _ (by decide)
  have h22 : E91.correlation ent_single_match_run 2 2 = 0 :=
    empirical_correlation_of_empty _ _ (by decide)
  have hs : E91.s_value ent_single_match_run = 1 := by
    rw [E91.s_value, h00, h02, h20, h22]
    norm_num
  constructor
  · show E91.is_violated ent_single_match_run = false
    rw [E91.is_violated, hs]
    norm_num
  · rw [hs]
    norm_num

/-- C4 (amended): the entanglement-based execute records truncate the
sifted key to the requested length, so their final keys never exceed it,
and the spec-modelled base pipeline pads or truncates to exactly the
requested length; CVQKD.execute instead takes
min(block length, floor(block length * capacity * 0.1)) bits, a quantity
independent of the requested key length that can exceed it (see the
counterexample). -/
theorem final_key_length_bounds (r : EntRun) (key_length : ℕ) (threshold : ℚ)
    (bits : List ℕ) (cap : ℝ) (sifted : List ℕ) :
    (E91.execute r key_length threshold).final_key.length ≤ key_length ∧
    (DIQKD.execute r key_length threshold).final_key.length ≤ key_length ∧
    (base_final_key sifted key_length).length = key_length ∧
    (CVQKD.final_key bits cap).length =
      min (CVQKD.final_key_len bits.length cap).toNat bits.length := by
  refine ⟨?_, ?_, ?_, ?_⟩
  · simp only [E91.execute, List.length_take]
    exact min_le_left _ _
  · simp only [DIQKD.execute, List.length_take]
    exact min_le_left _ _
  · simp only [base_final_key, List.length_append, List.length_take, List.length_replicate]
    omega
  · simp only [CVQKD.final_key, List.length_take]

/-- Counterexample to C4 as stated: a CVQKD run at the default
construction parameters (key_length 100, modulation variance 4, homodyne
efficiency 0.9) produces a final key of more than 100 bits, since
capacity = 0.5 * log2(4.6) exceeds 1 and the block holds 10000 signals. -/
theorem cv_final_key_exceeds_requested_length :
    100 < (CVQKD.final_key (List.replicate (CVQKD.block_size 100) 1)
        (CVQKD.capacity 4 (9 / 10))).length := by
  have hcap : (1 : ℝ) ≤ CVQKD.capacity 4 (9 / 10) := by
    rw [CVQKD.capacity]
    have hlog : Real.log 2 ≠ 0 := ne_of_gt (Real.log_pos (by norm_num))
    have h2 : Real.logb 2 4 = 2 := by
      rw [Real.logb, show (4 : ℝ) = 2 ^ (2 : ℕ) from by norm_num, Real.log_pow]
      push_cast
      rw [mul_div_assoc, div_self hlog, mul_one]
    have hle : Real.logb 2 4 ≤ Real.logb 2 (1 + 4 * (9 / 10)) :=
      Real.logb_le_logb_of_le (by norm_num) (by norm_num) (by norm_num)
    linarith
  have hblock : (List.replicate (CVQKD.block_size 100) 1).length = 10000 := by
    rw [List.length_replicate, CVQKD.block_size]
    omega
  rw [CVQKD.final_key, List.length_take, hblock]
  clear hblock
  have hlen : (1000 : ℤ) ≤ CVQKD.final_key_len 10000 (CVQKD.capacity 4 (9 / 10)) := by
    rw [CVQKD.final_key_len, Int.le_floor]
    push_cast
    nlinarith [hcap]
  omega

/-- Evaluation rule for SARG04.estimate_qber on a sufficiently large
sifted key: the returned estimate is the error count over the sampled
indices divided by the sample size. -/
theorem sarg04_estimate_qber_eval (r : SARG04.Run) (np_indices : List ℕ) (e n : ℕ)
    (hlen : ¬(SARG04.sift_keys r).1.length < 10)
    (he : (np_indices.filter (fun idx =>
      !decide (listGet (SARG04.sift_keys r).1 idx 0 =
        listGet (SARG04.sift_keys r).2 idx 0))).length = e)
    (hn : SARG04.sample_size (SARG04.sift_keys r).1.length = n) :
    SARG04.estimate_qber r np_indices = (e : ℚ) / n := by
  simp only [SARG04.estimate_qber]
  rw [if_neg hlen, he, hn]

/-- C5 (amended): not every draw is taken from the injected secure
capability.  SARG04.estimate_qber consumes index samples drawn from the
globally seeded numpy generator, and CVQKD.measure_states consumes noise
values drawn from it: each recorded measurement is the explicit function
below of the stored quadratures, the secure-seeded basis draw, and the
numpy noise draws at the same position, so two runs agree exactly when
their stored data, their secure draws and their numpy draws all agree;
agreement of the secure stream alone does not suffice (see the
counterexample). -/
theorem np_random_enters_qber_and_measurement
    (alice_x alice_p : List ℝ) (lc dist eta : ℝ) (bob_bases : List Bool)
    (vx vp ex ep dn vd : List ℝ) (i : ℕ) (hi : i < bob_bases.length)
    (r : SARG04.Run) (np_indices : List ℕ)
    (hlen : ¬(SARG04.sift_keys r).1.length < 10) :
    listGet (CVQKD.measure_states alice_x alice_p lc dist eta bob_bases
        vx vp ex ep dn vd) i 0 =
      Real.sqrt eta *
          (if listGet bob_bases i false = false then
            Real.sqrt ((10 : ℝ) ^ (-(lc * dist) / 10)) * listGet alice_x i 0 +
              Real.sqrt (1 - Real.sqrt ((10 : ℝ) ^ (-(lc * dist) / 10)) ^ 2) *
                listGet vx i 0 + listGet ex i 0
          else
            Real.sqrt ((10 : ℝ) ^ (-(lc * dist) / 10)) * listGet alice_p i 0 +
              Real.sqrt (1 - Real.sqrt ((10 : ℝ) ^ (-(lc * dist) / 10)) ^ 2) *
                listGet vp i 0 + listGet ep i 0) +
        Real.sqrt (1 - eta) * listGet vd i 0 + listGet dn i 0 ∧
    SARG04.estimate_qber r np_indices =
      ((np_indices.filter (fun idx =>
        !decide (listGet (SARG04.sift_keys r).1 idx 0 =
          listGet (SARG04.sift_keys r).2 idx 0))).length : ℚ) /
        SARG04.sample_size (SARG04.sift_keys r).1.length := by
  constructor
  · rw [CVQKD.measure_states, listGet_range_map _ _ _ _ hi]
  · exact sarg04_estimate_qber_eval r np_indices _ _ hlen rfl rfl

/-- Witness for C5 at concrete inputs: the one-signal measurement run and
the ten-bit csprng run satisfy the hypotheses, and the QBER estimate over
the sampled indices 0 and 1 equals the stated error fraction. -/
theorem np_random_enters_qber_and_measurement_w :
    (0 : ℕ) < ([false] : List Bool).length ∧
    ¬(SARG04.sift_keys sarg04_csprng_run).1.length < 10 ∧
    SARG04.estimate_qber sarg04_csprng_run [0, 1] =
      ((([0, 1] : List ℕ).filter (fun idx =>
        !decide (listGet (SARG04.sift_keys sarg04_csprng_run).1 idx 0 =
          listGet (SARG04.sift_keys sarg04_csprng_run).2 idx 0))).length : ℚ) /
        SARG04.sample_size (SARG04.sift_keys sarg04_csprng_run).1.length :=
  ⟨by decide, by decide,
   (np_random_enters_qber_and_measurement [0] [0] 0 0 0 [false] [0] [0] [0] [0] [0] [0]
     0 (by decide) sarg04_csprng_run [0, 1] (by decide)).2⟩

/-- Counterexample to C5 as stated: with stored protocol data fixed and no
secure draw varied, changing only the numpy-drawn values changes the
results.  SARG04.estimate_qber on a run with a ten-bit sifted key returns
1/2 when numpy samples the indices 0 and 1 and returns 0 when it samples 8
and 9; CVQKD.measure_states on a one-signal run returns different recorded
measurements when only the numpy-drawn detector noise changes from 0 to 1. -/
theorem np_random_dependence_counterexample :
    SARG04.estimate_qber sarg04_csprng_run [0, 1] ≠
      SARG04.estimate_qber sarg04_csprng_run [8, 9] ∧
    listGet (CVQKD.measure_states [1] [0] 0 0 (9 / 10) [false]
        [0] [0] [0] [0] [1] [0]) 0 0 ≠
      listGet (CVQKD.measure_states [1] [0] 0 0 (9 / 10) [false]
        [0] [0] [0] [0] [0] [0]) 0 0 := by
  constructor
  · have h1 : SARG04.estimate_qber sarg04_csprng_run [0, 1] = ((1 : ℕ) : ℚ) / (2 : ℕ) :=
      sarg04_estimate_qber_eval _ _ 1 2 (by decide) (by decide) (by decide)
    have h2 : SARG04.estimate_qber sarg04_csprng_run [8, 9] = ((0 : ℕ) : ℚ) / (2 : ℕ) :=
      sarg04_estimate_qber_eval _ _ 0 2 (by decide) (by decide) (by decide)
    rw [h1, h2]
    norm_num
  · have hr : List.range 1 = [0] := rfl
    simp only [CVQKD.measure_states, hr, List.map_cons, List.map_nil, listGet]
    intro h
    linarith

/-- C6 (amended): a sifted sample that is too small never raises: SARG04
returns the maximal estimate 1.0 below 10 sifted bits, E91 returns 1.0 on
an empty sifted key, CV-QKD returns 1.0 below 2 samples, and an empty
Bell setting pair contributes correlation 0.0 in both Bell tests; when
every reserved setting pair is empty the statistic is 0 and the run ends
with is_secure false (for DeviceIndependentQKD under its intended
nonnegative threshold).  is_secure = false does not, however, follow from
the insufficient-data conditions themselves: the security decision reads
only the CHSH statistic (see the counterexample). -/
theorem insufficient_data_conservative_defaults :
    (∀ (r : SARG04.Run) (np_indices : List ℕ),
        (SARG04.sift_keys r).1.length < 10 → SARG04.estimate_qber r np_indices = 1) ∧
    (∀ r : EntRun, (E91.sift_keys r).1 = [] → E91.estimate_qber r = 1) ∧
    (∀ (ax ap : List ℚ) (bb : List Bool) (bm : List ℚ),
        (CVQKD.sift_keys ax ap bb bm).1.length < 2 →
        CVQKD.estimate_qber ax ap bb bm = 1) ∧
    (∀ (r : EntRun) (a b : Fin 3),
        E91.pair_indices r a b = [] → E91.correlation r a b = 0) ∧
    (∀ (r : EntRun) (a b : Fin 3),
        DIQKD.pair_indices r a b = [] → DIQKD.correlation r a b = 0) ∧
    (∀ r : EntRun, (∀ a b : Fin 3, E91.pair_indices r a b = []) →
        E91.is_violated r = false) ∧
    (∀ (r : EntRun) (key_length : ℕ) (t : ℚ), 0 ≤ t →
        (∀ a b : Fin 3, DIQKD.pair_indices r a b = []) →
        (DIQKD.execute r key_length t).is_secure = false) := by
  have hecorr : ∀ (r : EntRun) (a b : Fin 3),
      E91.pair_indices r a b = [] → E91.correlation r a b = 0 := by
    intro r a b h
    rw [E91.correlation, h]
    exact empirical_correlation_of_empty _ _ rfl
  have hdcorr : ∀ (r : EntRun) (a b : Fin 3),
      DIQKD.pair_indices r a b = [] → DIQKD.correlation r a b = 0 := by
    intro r a b h
    rw [DIQKD.correlation, h]
    exact empirical_correlation_of_empty _ _ rfl
  refine ⟨?_, ?_, ?_, hecorr, hdcorr, ?_, ?_⟩
  · intro r np_indices h
    simp only [SARG04.estimate_qber]
    rw [if_pos h]
  · intro r h
    simp only [E91.estimate_qber]
    rw [if_pos h]
  · intro ax ap bb bm h
    simp only [CVQKD.estimate_qber]
    rw [if_pos h]
  · intro r h
    have h00 := hecorr r 0 0 (h 0 0)
    have h02 := hecorr r 0 2 (h 0 2)
    have h20 := hecorr r 2 0 (h 2 0)
    have h22 := hecorr r 2 2 (h 2 2)
    simp only [E91.is_violated, E91.s_value, h00, h02, h20, h22]
    norm_num
  · intro r key_length t ht h
    have h11 := hdcorr r 1 1 (h 1 1)
    have h12 := hdcorr r 1 2 (h 1 2)
    have h21 := hdcorr r 2 1 (h 2 1)
    have h22 := hdcorr r 2 2 (h 2 2)
    simp only [DIQKD.execute, DIQKD.s_value, h11, h12, h21, h22]
    simp only [add_zero, zero_add, sub_zero, abs_zero, decide_eq_false_iff_not, not_lt]
    simpa using ht

/-- Witness for C6 at concrete inputs: the empty SARG04, E91, DI-QKD and
CV-QKD runs all take the insufficient-data branches, every Bell pair is
empty, the correlations are 0 and both security decisions are false. -/
theorem insufficient_data_conservative_defaults_w :
    ((SARG04.sift_keys sarg04_empty_run).1.length < 10 ∧
      SARG04.estimate_qber sarg04_empty_run [] = 1) ∧
    ((E91.sift_keys ent_empty_run).1 = [] ∧ E91.estimate_qber ent_empty_run = 1) ∧
    ((CVQKD.sift_keys [] [] [] []).1.length < 2 ∧ CVQKD.estimate_qber [] [] [] [] = 1) ∧
    (E91.pair_indices ent_empty_run 0 0 = [] ∧ E91.correlation ent_empty_run 0 0 = 0) ∧
    (DIQKD.pair_indices ent_empty_run 1 1 = [] ∧ DIQKD.correlation ent_empty_run 1 1 = 0) ∧
    E91.is_violated ent_empty_run = false ∧
    (0 : ℚ) ≤ 2 ∧ (DIQKD.execute ent_empty_run 0 2).is_secure = false :=
  ⟨⟨by decide, insufficient_data_conservative_defaults.1 sarg04_empty_run [] (by decide)⟩,
   ⟨by decide, insufficient_data_conservative_defaults.2.1 ent_empty_run (by decide)⟩,
   ⟨by decide, insufficient_data_conservative_defaults.2.2.1 [] [] [] [] (by decide)⟩,
   ⟨by decide, insufficient_data_conservative_defaults.2.2.2.1 ent_empty_run 0 0 (by decide)⟩,
   ⟨by decide, insufficient_data_conservative_defaults.2.2.2.2.1 ent_empty_run 1 1 (by decide)⟩,
   insufficient_data_conservative_defaults.2.2.2.2.2.1 ent_empty_run (by decide),
   by norm_num,
   insufficient_data_conservative_defaults.2.2.2.2.2.2 ent_empty_run 0 2 (by norm_num)
     (by decide)⟩

/-- Counterexample to C6 as stated: on the recorded data
ent_chsh_max_run_e91 the E91 sifted key is empty, so the QBER estimate is
the conservative 1.0, yet the run completes with is_secure = true because
the four reserved CHSH pairs drive S to 4; insufficient key data does not
force is_secure = false. -/
theorem insufficient_data_still_secure_counterexample :
    (E91.sift_keys ent_chsh_max_run_e91).1 = [] ∧
    E91.estimate_qber ent_chsh_max_run_e91 = 1 ∧
    (E91.execute ent_chsh_max_run_e91 100 (1 / 10)).is_secure = true := by
  have he00 : E91.correlation ent_chsh_max_run_e91 0 0 = 2 * ((1 : ℚ) / 1) - 1 :=
    empirical_correlation_eval _ _ 1 1 (by decide) (by decide) (by decide)
  have he02 : E91.correlation ent_chsh_max_run_e91 0 2 = 2 * ((0 : ℚ) / 1) - 1 :=
    empirical_correlation_eval _ _ 1 0 (by decide) (by decide) (by decide)
  have he20 : E91.correlation ent_chsh_max_run_e91 2 0 = 2 * ((1 : ℚ) / 1) - 1 :=
    empirical_correlation_eval _ _ 1 1 (by decide) (by decide) (by decide)
  have he22 : E91.correlation ent_chsh_max_run_e91 2 2 = 2 * ((1 : ℚ) / 1) - 1 :=
    empirical_correlation_eval _ _ 1 1 (by decide) (by decide) (by decide)
  refine ⟨by decide, ?_, ?_⟩
  · simp only [E91.estimate_qber]
    rw [if_pos (by decide : (E91.sift_keys ent_chsh_max_run_e91).1 = [])]
  · show E91.is_violated ent_chsh_max_run_e91 = true
    simp only [E91.is_violated, E91.s_value, he00, he02, he20, he22]
    norm_num

theorem sarg04_measure_aux_length (qubits : List (Option SState)) (bs : ℕ → SBasis)
    (os : ℕ → Fin 2) (k : ℕ) :
    (SARG04.measure_aux qubits bs os k).1.length = qubits.length ∧
    (SARG04.measure_aux qubits bs os k).2.length = qubits.length := by
  induction qubits generalizing k with
  | nil => simp [SARG04.measure_aux]
  | cons q rest ih =>
    cases q with
    | none => simp [SARG04.measure_aux, (ih k).1, (ih k).2]
    | some s => simp [SARG04.measure_aux, (ih (k + 1)).1, (ih (k + 1)).2]

theorem sarg04_measure_aux_sentinel_iff (qubits : List (Option SState)) (bs : ℕ → SBasis)
    (os : ℕ → Fin 2) (k i : ℕ) :
    (listGet (SARG04.measure_aux qubits bs os k).2 i (some 0) = none ↔
      listGet qubits i (some SState.s0) = none) ∧
    (listGet (SARG04.measure_aux qubits bs os k).1 i (some SBasis.computational) = none ↔
      listGet qubits i (some SState.s0) = none) := by
  induction qubits generalizing k i with
  | nil => simp [SARG04.measure_aux, listGet]
  | cons q rest ih =>
    cases q with
    | none =>
      cases i with
      | zero => simp [SARG04.measure_aux, listGet]
      | succ j => simpa [SARG04.measure_aux, listGet] using ih k j
    | some s =>
      cases i with
      | zero => simp [SARG04.measure_aux, listGet]
      | succ j => simpa [SARG04.measure_aux, listGet] using ih (k + 1) j

theorem sarg04_measure_aux_result_bit (qubits : List (Option SState)) (bs : ℕ → SBasis)
    (os : ℕ → Fin 2) (k i v : ℕ)
    (h : listGet (SARG04.measure_aux qubits bs os k).2 i none = some v) :
    v = 0 ∨ v = 1 := by
  induction qubits generalizing k i with
  | nil => simp [SARG04.measure_aux, listGet] at h
  | cons q rest ih =>
    cases q with
    | none =>
      cases i with
      | zero => simp [SARG04.measure_aux, listGet] at h
      | succ j => exact ih k j (by simpa [SARG04.measure_aux, listGet] using h)
    | some s =>
      cases i with
      | zero =>
        have hlt := (os k).isLt
        simp [SARG04.measure_aux, listGet] at h
        omega
      | succ j => exact ih (k + 1) j (by simpa [SARG04.measure_aux, listGet] using h)

theorem sarg04_kept_not_sentinel (r : SARG04.Run) (i : ℕ)
    (h : i ∈ SARG04.kept_indices r) :
    listGet r.bob_bases i none ≠ none ∧ listGet r.bob_results i none ≠ none := by
  rw [SARG04.kept_indices, List.mem_filter] at h
  have hk := h.2
  cases hb : listGet r.bob_bases i none with
  | none => simp [SARG04.keep, hb] at hk
  | some basis =>
    cases hr : listGet r.bob_results i none with
    | none => simp [SARG04.keep, hb, hr] at hk
    | some result => exact ⟨by simp [hb], by simp [hr]⟩

/-- C8: a lost carrier records the protocol sentinel at its original
index, distinct from the measurement outcomes 0 and 1, and sifting never
keeps a sentinel index.  For SARG04, measure_states stores None exactly at
the lost positions of both bob lists (outcomes at received positions are 0
or 1), the loss guard of sift_keys passes exactly at indices with recorded
data, and every kept index carries recorded data.  For E91 and
DeviceIndependentQKD, measure_states stores -1 in both result lists
exactly at the lost trials, records 0 or 1 otherwise, and every kept trial
has both results different from -1. -/
theorem lost_carriers_record_sentinel :
    (∀ (qubits : List (Option SState)) (bs : ℕ → SBasis) (os : ℕ → Fin 2),
      (SARG04.measure_states qubits bs os).1.length = qubits.length ∧
      (SARG04.measure_states qubits bs os).2.length = qubits.length ∧
      (∀ i : ℕ,
        (listGet (SARG04.measure_states qubits bs os).2 i (some 0) = none ↔
          listGet qubits i (some SState.s0) = none) ∧
        (listGet (SARG04.measure_states qubits bs os).1 i (some SBasis.computational) = none ↔
          listGet qubits i (some SState.s0) = none)) ∧
      (∀ i v : ℕ, listGet (SARG04.measure_states qubits bs os).2 i none = some v →
        v = 0 ∨ v = 1)) ∧
    (∀ (r : SARG04.Run) (i : ℕ) (basis : SBasis) (result : ℕ),
      listGet r.bob_bases i none = some basis →
      listGet r.bob_results i none = some result →
      SARG04.keep r i =
        (SARG04.inferred_bit (listGet r.announced_sets i (SState.s0, SState.s0))
          basis result).isSome) ∧
    (∀ (r : SARG04.Run) (i : ℕ), i ∈ SARG04.kept_indices r →
      listGet r.bob_bases i none ≠ none ∧ listGet r.bob_results i none ≠ none) ∧
    (∀ (loss : List Bool) (ao bo : ℕ → Fin 2),
      (ent_measure_results loss ao bo).1.length = loss.length ∧
      (ent_measure_results loss ao bo).2.length = loss.length ∧
      (∀ i : ℕ, i < loss.length →
        ((listGet (ent_measure_results loss ao bo).1 i 0 = -1 ∧
          listGet (ent_measure_results loss ao bo).2 i 0 = -1) ↔
            listGet loss i false = true) ∧
        (listGet loss i false = false →
          (listGet (ent_measure_results loss ao bo).1 i 0 = 0 ∨
            listGet (ent_measure_results loss ao bo).1 i 0 = 1) ∧
          (listGet (ent_measure_results loss ao bo).2 i 0 = 0 ∨
            listGet (ent_measure_results loss ao bo).2 i 0 = 1)))) ∧
    (∀ (r : EntRun) (i : ℕ), i ∈ E91.kept_indices r →
      listGet r.alice_results i 0 ≠ -1 ∧ listGet r.bob_results i 0 ≠ -1) ∧
    (∀ (r : EntRun) (i : ℕ), i ∈ DIQKD.kept_indices r →
      listGet r.alice_results i 0 ≠ -1 ∧ listGet r.bob_results i 0 ≠ -1) := by
  refine ⟨?_, ?_, ?_, ?_, ?_, ?_⟩
  · intro qubits bs os
    refine ⟨(sarg04_measure_aux_length qubits bs os 0).1,
      (sarg04_measure_aux_length qubits bs os 0).2,
      fun i => sarg04_measure_aux_sentinel_iff qubits bs os 0 i,
      fun i v h => sarg04_measure_aux_result_bit qubits bs os 0 i v h⟩
  · intro r i basis result hb hr
    simp [SARG04.keep, hb, hr]
  · exact fun r i h => sarg04_kept_not_sentinel r i h
  · intro loss ao bo
    refine ⟨by simp [ent_measure_results], by simp [ent_measure_results], ?_⟩
    intro i hi
    have ha := (ao i).isLt
    have hb := (bo i).isLt
    simp only [ent_measure_results]
    rw [listGet_range_map _ _ _ _ hi, listGet_range_map _ _ _ _ hi]
    cases hl : listGet loss i false with
    | false =>
      simp only [if_neg Bool.false_ne_true]
      constructor
      · constructor
        · rintro ⟨h1, h2⟩
          omega
        · intro h
          simp at h
      · intro _
        constructor <;> omega
    | true =>
      simp only [if_pos rfl]
      constructor
      · simp
      · intro h
        simp at h
  · intro r i h
    have := (e91_mem_kept_indices_iff r i).mp h
    exact ⟨this.2.1, this.2.2.1⟩
  · intro r i h
    have := (di_mem_kept_indices_iff r i).mp h
    exact ⟨this.2.1, this.2.2.1⟩

/-- Witness for C8 at concrete inputs: a two-qubit SARG04 measurement
whose second qubit is lost records None exactly there; index 0 of the
witness run is kept and carries data; a one-trial lost entanglement run
records -1 on both sides; the kept E91 and DI-QKD runs carry non-sentinel
results at their kept index 0. -/
theorem lost_carriers_record_sentinel_w :
    (listGet (SARG04.measure_states [some SState.s0, none]
        (fun _ => SBasis.computational) (fun _ => 1)).2 1 (some 0) = none ↔
      listGet [some SState.s0, none] 1 (some SState.s0) = none) ∧
    SARG04.keep sarg04_wit_run 0 =
      (SARG04.inferred_bit (listGet sarg04_wit_run.announced_sets 0 (SState.s0, SState.s0))
        SBasis.computational 1).isSome ∧
    (0 ∈ SARG04.kept_indices sarg04_wit_run ∧
      listGet sarg04_wit_run.bob_results 0 none ≠ none) ∧
    ((listGet (ent_measure_results [true] (fun _ => 0) (fun _ => 0)).1 0 0 = -1 ∧
      listGet (ent_measure_results [true] (fun _ => 0) (fun _ => 0)).2 0 0 = -1) ↔
        listGet [true] 0 false = true) ∧
    (0 ∈ E91.kept_indices ent_key_pair_run ∧
      listGet ent_key_pair_run.alice_results 0 0 ≠ -1) ∧
    (0 ∈ DIQKD.kept_indices ent_single_match_run ∧
      listGet ent_single_match_run.bob_results 0 0 ≠ -1) :=
  ⟨((lost_carriers_record_sentinel.1 [some SState.s0, none]
      (fun _ => SBasis.computational) (fun _ => 1)).2.2.1 1).1,
   lost_carriers_record_sentinel.2.1 sarg04_wit_run 0 SBasis.computational 1 rfl rfl,
   ⟨by decide,
    (lost_carriers_record_sentinel.2.2.1 sarg04_wit_run 0 (by decide)).2⟩,
   ((lost_carriers_record_sentinel.2.2.2.1 [true] (fun _ => 0) (fun _ => 0)).2.2 0
      (by decide)).1,
   ⟨by decide,
    (lost_carriers_record_sentinel.2.2.2.2.1 ent_key_pair_run 0 (by decide)).1⟩,
   ⟨by decide,
    (lost_carriers_record_sentinel.2.2.2.2.2 ent_single_match_run 0 (by decide)).2⟩⟩

/-- C9: after SARG04.prepare_states, all four stored lists have length
num_qubits, and at every index the announced set is a pair of two
distinct, non-orthogonal state strings, one of which is the state actually
sent (its basis is the stored alice basis and it encodes the stored alice
bit) while the other lies in the opposite basis and encodes the
complementary bit. -/
theorem sarg04_prepare_states_invariants (n : ℕ) (bit_stream : ℕ → Fin 2)
    (basis_stream : ℕ → SBasis) (order_stream : ℕ → Bool) :
    (SARG04.prepare_states n bit_stream basis_stream order_stream).alice_bits.length = n ∧
    (SARG04.prepare_states n bit_stream basis_stream order_stream).alice_bases.length = n ∧
    (SARG04.prepare_states n bit_stream basis_stream order_stream).sent_states.length = n ∧
    (SARG04.prepare_states n bit_stream basis_stream order_stream).announced_sets.length = n ∧
    (∀ i : ℕ, i < n →
      let p := listGet (SARG04.prepare_states n bit_stream basis_stream
        order_stream).announced_sets i (SState.s0, SState.s0)
      let sent := listGet (SARG04.prepare_states n bit_stream basis_stream
        order_stream).sent_states i SState.s0
      let other := if sent = p.1 then p.2 else p.1
      p.1 ≠ p.2 ∧
      SARG04.are_orthogonal p.1 p.2 = false ∧
      (p = (sent, other) ∨ p = (other, sent)) ∧
      SARG04.state_basis sent =
        listGet (SARG04.prepare_states n bit_stream basis_stream
          order_stream).alice_bases i SBasis.computational ∧
      SARG04.get_bit_from_state sent =
        listGet (SARG04.prepare_states n bit_stream basis_stream
          order_stream).alice_bits i 0 ∧
      SARG04.state_basis other ≠ SARG04.state_basis sent ∧
      SARG04.get_bit_from_state other =
        1 - listGet (SARG04.prepare_states n bit_stream basis_stream
          order_stream).alice_bits i 0) := by
  refine ⟨by simp [SARG04.prepare_states], by simp [SARG04.prepare_states],
    by simp [SARG04.prepare_states], by simp [SARG04.prepare_states], ?_⟩
  intro i hi
  simp only [SARG04.prepare_states]
  rw [listGet_range_map _ _ _ _ hi, listGet_range_map _ _ _ _ hi,
    listGet_range_map _ _ _ _ hi, listGet_range_map _ _ _ _ hi]
  generalize bit_stream i = b
  generalize basis_stream i = c
  generalize order_stream i = o
  fin_cases b <;> cases c <;> cases o <;> decide

/-- Witness for C9 at a concrete one-qubit preparation: bit 0 in the
computational basis with the unswapped announcement order. -/
theorem sarg04_prepare_states_invariants_w :
    (let p := listGet (SARG04.prepare_states 1 (fun _ => 0)
      (fun _ => SBasis.computational) (fun _ => false)).announced_sets 0
      (SState.s0, SState.s0)
     let sent := listGet (SARG04.prepare_states 1 (fun _ => 0)
      (fun _ => SBasis.computational) (fun _ => false)).sent_states 0 SState.s0
     let other := if sent = p.1 then p.2 else p.1
     p.1 ≠ p.2 ∧
     SARG04.are_orthogonal p.1 p.2 = false ∧
     (p = (sent, other) ∨ p = (other, sent)) ∧
     SARG04.state_basis sent =
       listGet (SARG04.prepare_states 1 (fun _ => 0)
         (fun _ => SBasis.computational) (fun _ => false)).alice_bases 0
         SBasis.computational ∧
     SARG04.get_bit_from_state sent =
       listGet (SARG04.prepare_states 1 (fun _ => 0)
         (fun _ => SBasis.computational) (fun _ => false)).alice_bits 0 0 ∧
     SARG04.state_basis other ≠ SARG04.state_basis sent ∧
     SARG04.get_bit_from_state other =
       1 - listGet (SARG04.prepare_states 1 (fun _ => 0)
         (fun _ => SBasis.computational) (fun _ => false)).alice_bits 0 0) :=
  (sarg04_prepare_states_invariants 1 (fun _ => 0) (fun _ => SBasis.computational)
    (fun _ => false)).2.2.2.2 0 (by decide)

/-- C10: CVQKD.sift_keys discards nothing: on stored data of common length
n (the block size after prepare_states and measure_states), it returns two
lists of length n whose entries are all 0 or 1, the sender entry at i
being the sign bit (1 if positive, else 0) of alice_x[i] when Bob measured
the X quadrature at i and of alice_p[i] otherwise, and the receiver entry
at i being the sign bit of the recorded measurement. -/
theorem cv_sift_keys_never_discards (n : ℕ) (alice_x alice_p : List ℚ)
    (bob_bases : List Bool) (bob_measurements : List ℚ)
    (hbb : bob_bases.length = n) (hbm : bob_measurements.length = n) :
    (CVQKD.sift_keys alice_x alice_p bob_bases bob_measurements).1.length = n ∧
    (CVQKD.sift_keys alice_x alice_p bob_bases bob_measurements).2.length = n ∧
    (∀ x ∈ (CVQKD.sift_keys alice_x alice_p bob_bases bob_measurements).1,
      x = 0 ∨ x = 1) ∧
    (∀ x ∈ (CVQKD.sift_keys alice_x alice_p bob_bases bob_measurements).2,
      x = 0 ∨ x = 1) ∧
    (∀ i : ℕ, i < n →
      listGet (CVQKD.sift_keys alice_x alice_p bob_bases bob_measurements).1 i 0 =
        if 0 < (if listGet bob_bases i false = false then listGet alice_x i 0
          else listGet alice_p i 0) then 1 else 0) := by
  refine ⟨?_, ?_, ?_, ?_, ?_⟩
  · simp [CVQKD.sift_keys, hbb]
  · simp [CVQKD.sift_keys, hbm]
  · intro x hx
    simp only [CVQKD.sift_keys, List.mem_map] at hx
    obtain ⟨y, _, hy⟩ := hx
    by_cases h0 : 0 < y <;> simp [h0] at hy <;> omega
  · intro x hx
    simp only [CVQKD.sift_keys, List.mem_map] at hx
    obtain ⟨y, _, hy⟩ := hx
    by_cases h0 : 0 < y <;> simp [h0] at hy <;> omega
  · intro i hi
    simp only [CVQKD.sift_keys, List.map_map]
    rw [listGet_range_map _ _ _ _ (hbb ▸ hi)]
    rfl

/-- Witness for C10 at a concrete two-signal run: Bob measured X then P,
the stored quadratures have mixed signs. -/
theorem cv_sift_keys_never_discards_w :
    (CVQKD.sift_keys [1, -1] [-2, 2] [false, true] [3, -3]).1.length = 2 ∧
    (CVQKD.sift_keys [1, -1] [-2, 2] [false, true] [3, -3]).2.length = 2 ∧
    (∀ x ∈ (CVQKD.sift_keys [1, -1] [-2, 2] [false, true] [3, -3]).1, x = 0 ∨ x = 1) ∧
    (∀ x ∈ (CVQKD.sift_keys [1, -1] [-2, 2] [false, true] [3, -3]).2, x = 0 ∨ x = 1) ∧
    (∀ i : ℕ, i < 2 →
      listGet (CVQKD.sift_keys [1, -1] [-2, 2] [false, true] [3, -3]).1 i 0 =
        if 0 < (if listGet [false, true] i false = false then listGet [(1 : ℚ), -1] i 0
          else listGet [(-2 : ℚ), 2] i 0) then 1 else 0) :=
  cv_sift_keys_never_discards 2 [1, -1] [-2, 2] [false, true] [3, -3] rfl rfl

end Qkdpy
